import Mathlib

/-!
Shallow embedding of the like/dislike "Reaction Ledger" subsystem of the
viet-cultural-be2 backend.

The post-side service functions (`likePost`, `isPostLikedByUser`,
`getLikesByPostId`, the `likeCount` computation of `getPostById`) and the
Express route guards are translated from `src/src/api/post/post.routes.js`
(which contains both the routes and `post.services.js`).  The comment-side
service functions (`likeComment`, `dislikeComment`, `unlikeComment`) live in
`comment.services.js`, which is not part of the sources; they are modelled
from the specification where needed and marked as such.

The Prisma database is modelled as an explicit `State`: lists of post ids,
comment ids, relation rows (`posts_rels`, `comments_rels`) and users, plus
the auto-increment counters for the two relation tables.  Relation rows are
never mutated in place; the services only insert and delete rows, exactly as
in the source.
-/

namespace VietCultural

/-- The `path` discriminator of a relation row (`posts_rels.path` /
`comments_rels.path` in the Prisma schema): `likedBy` and `dislikedBy` rows
are reaction edges, `tags` rows link posts to tags. -/
inductive RelPath where
  | likedBy
  | dislikedBy
  | tags
deriving DecidableEq, Repr

/-- A row of a relations table (`posts_rels` / `comments_rels`): id,
parent entity id, optional user id (set for reaction edges), optional tag id
(set for tag rows) and the `path` discriminator. -/
structure Rel where
  id : Nat
  parent_id : Nat
  user_id : Option Nat
  tags_id : Option Nat
  path : RelPath
deriving DecidableEq, Repr

/-- A user row.  Only the fields observable through the modelled operations
are carried (`id`, `full_name`, `avatar_url`, `avatar`), plus `password` and
`email` standing for the sensitive attributes a user row also stores. -/
structure User where
  id : Nat
  full_name : String
  avatar_url : Option String
  avatar : Option String
  password : String
  email : String
deriving DecidableEq, Repr

/-- The database state visible to the reaction ledger: existing post ids,
existing comment ids, the two relation tables, the user table, and the
auto-increment id counters of the two relation tables. -/
structure State where
  posts : List Nat
  comments : List Nat
  posts_rels : List Rel
  comments_rels : List Rel
  users : List User
  nextPostsRelId : Nat
  nextCommentsRelId : Nat
deriving DecidableEq, Repr

/-- The Prisma `where { parent_id, user_id, path }` filter used by
`findFirst` in `likePost` / `isPostLikedByUser` (and their comment
counterparts): a row matches iff it links exactly this (parent, user) pair
with this reaction kind. -/
def edgeMatch (parentId userId : Nat) (p : RelPath) (r : Rel) : Bool :=
  r.parent_id == parentId && r.user_id == some userId && r.path == p

/-- The Prisma `count({ where: { parent_id, path } })` aggregation used to
refresh reaction counts. -/
def pathCount (rels : List Rel) (parentId : Nat) (p : RelPath) : Nat :=
  (rels.filter (fun r => r.parent_id == parentId && r.path == p)).length

/-- Number of edges present for a single (parent, user, kind) triple;
the core invariant says this is at most 1 for the reaction kinds. -/
def pairCount (rels : List Rel) (parentId userId : Nat) (p : RelPath) : Nat :=
  (rels.filter (edgeMatch parentId userId p)).length

/-- Result shape of `likePost` (and of the comment like/dislike toggles). -/
structure LikeResult where
  liked : Bool
  likeCount : Nat
  message : String
deriving DecidableEq, Repr

/-- Errors thrown by the services: `notFound` models the
`throw new Error('Post not found')` path (and the comment-missing error of
`unlikeComment`); `invalidNumber` models `Number()` producing NaN, which the
Prisma client rejects when used in an `Int` filter (an unexpected storage
error at the boundary). -/
inductive SvcError where
  | notFound
  | invalidNumber
deriving DecidableEq, Repr

/-- `likePost(postId, userId)` from `post.services.js` (numeric ids; the
`Number()` coercion of string ids is `likePostJS` below).  Checks the post
exists, looks up an existing `likedBy` row for the pair, deletes it by id if
present (toggle-off) or inserts a fresh row if absent, then recounts the
`likedBy` rows of the post and returns the result. -/
def likePost (s : State) (postId userId : Nat) : Except SvcError LikeResult × State :=
  if s.posts.contains postId then
    match s.posts_rels.find? (edgeMatch postId userId RelPath.likedBy) with
    | some existingLike =>
        let rels := s.posts_rels.filter (fun r => r.id != existingLike.id)
        (Except.ok { liked := false, likeCount := pathCount rels postId RelPath.likedBy,
                     message := "Post unliked successfully" },
         { s with posts_rels := rels })
    | none =>
        let rels := s.posts_rels ++
          [{ id := s.nextPostsRelId, parent_id := postId, user_id := some userId,
             tags_id := none, path := RelPath.likedBy }]
        (Except.ok { liked := true, likeCount := pathCount rels postId RelPath.likedBy,
                     message := "Post liked successfully" },
         { s with posts_rels := rels, nextPostsRelId := s.nextPostsRelId + 1 })
  else (Except.error SvcError.notFound, s)

/-- `isPostLikedByUser(postId, userId)` from `post.services.js` (numeric
ids): `findFirst` on the (parent, user, likedBy) filter, coerced to a
boolean. -/
def isPostLikedByUser (s : State) (postId userId : Nat) : Bool :=
  (s.posts_rels.find? (edgeMatch postId userId RelPath.likedBy)).isSome

/-- Base URL prepended to stored avatar keys when formatting user
summaries. -/
def IMAGE_BASE_URL : String := "https://qauff8c31y.ufs.sh/f/"

/-- The user object included in responses: only `id`, `full_name`,
`avatar_url` and the derived `avatarUrl` (computed from the stored `avatar`
key). -/
structure UserSummary where
  id : Nat
  full_name : String
  avatar_url : Option String
  avatarUrl : Option String
deriving DecidableEq, Repr

/-- Formatting of a user row into the summary exposed by the like list:
`avatarUrl` is `IMAGE_BASE_URL + avatar` when `avatar` is truthy (non-null,
non-empty) and null otherwise, mirroring the JS conditional. -/
def userSummaryOf (u : User) : UserSummary :=
  { id := u.id, full_name := u.full_name, avatar_url := u.avatar_url,
    avatarUrl :=
      match u.avatar with
      | some a => if a = "" then none else some (IMAGE_BASE_URL ++ a)
      | none => none }

/-- One element of the `getLikesByPostId` response: the relation row id,
the reacting user id, and the (possibly absent) user summary. -/
structure LikeEntry where
  id : Nat
  userId : Option Nat
  user : Option UserSummary
deriving DecidableEq, Repr

/-- `getLikesByPostId(postId)` from `post.services.js` (numeric id):
`findMany` of the `likedBy` rows of the post with the related user included
(join on `user_id`), mapped to `{id, userId, user summary}`. -/
def getLikesByPostId (s : State) (postId : Nat) : List LikeEntry :=
  (s.posts_rels.filter (fun r => r.parent_id == postId && r.path == RelPath.likedBy)).map
    (fun r =>
      { id := r.id, userId := r.user_id,
        user := (r.user_id.bind (fun uid => s.users.find? (fun u => u.id == uid))).map
          userSummaryOf })

/-- The slice of the `getPostById` response relevant to the reaction
ledger: the post id and its like count.  (Media/tag/URL formatting of the
response is CRUD glue outside the verified core.) -/
structure PostView where
  id : Nat
  likeCount : Nat
deriving DecidableEq, Repr

/-- `getPostById(id)` from `post.services.js`, restricted to the
reaction-relevant fields: `findUnique` with `posts_rels` included (all
relation rows whose `parent_id` is the post), returning null when the post
is missing, else the post with `likeCount` computed as the length of the
included rows filtered to `path === 'likedBy'`. -/
def getPostById (s : State) (id : Nat) : Option PostView :=
  if s.posts.contains id then
    let posts_rels := s.posts_rels.filter (fun r => r.parent_id == id)
    some { id := id,
           likeCount := (posts_rels.filter (fun r => r.path == RelPath.likedBy)).length }
  else none

/-- Modelled from the spec: `likeComment(commentId, userId)` of the missing
`comment.services.js`.  Per spec §4.1 the comment toggle has the same
delete-or-insert semantics as `likePost` on the `comments_rels` table, except
that comment existence is not validated (spec §9). -/
def likeComment (s : State) (commentId userId : Nat) : Except SvcError LikeResult × State :=
  match s.comments_rels.find? (edgeMatch commentId userId RelPath.likedBy) with
  | some existingLike =>
      let rels := s.comments_rels.filter (fun r => r.id != existingLike.id)
      (Except.ok { liked := false, likeCount := pathCount rels commentId RelPath.likedBy,
                   message := "Comment unliked successfully" },
       { s with comments_rels := rels })
  | none =>
      let rels := s.comments_rels ++
        [{ id := s.nextCommentsRelId, parent_id := commentId, user_id := some userId,
           tags_id := none, path := RelPath.likedBy }]
      (Except.ok { liked := true, likeCount := pathCount rels commentId RelPath.likedBy,
                   message := "Comment liked successfully" },
       { s with comments_rels := rels, nextCommentsRelId := s.nextCommentsRelId + 1 })

/-- Modelled from the spec: `dislikeComment(commentId, userId)` of the
missing `comment.services.js`: same toggle on the independent `dislikedBy`
edge kind (spec §4.1), no comment existence validation (spec §9). -/
def dislikeComment (s : State) (commentId userId : Nat) : Except SvcError LikeResult × State :=
  match s.comments_rels.find? (edgeMatch commentId userId RelPath.dislikedBy) with
  | some existing =>
      let rels := s.comments_rels.filter (fun r => r.id != existing.id)
      (Except.ok { liked := false, likeCount := pathCount rels commentId RelPath.dislikedBy,
                   message := "Comment undisliked successfully" },
       { s with comments_rels := rels })
  | none =>
      let rels := s.comments_rels ++
        [{ id := s.nextCommentsRelId, parent_id := commentId, user_id := some userId,
           tags_id := none, path := RelPath.dislikedBy }]
      (Except.ok { liked := true, likeCount := pathCount rels commentId RelPath.dislikedBy,
                   message := "Comment disliked successfully" },
       { s with comments_rels := rels, nextCommentsRelId := s.nextCommentsRelId + 1 })

/-- Modelled from the spec: `unlikeComment(commentId, userId)` of the
missing `comment.services.js`.  Per spec §4.1 it raises NotFound when the
parent comment does not exist (the route maps the thrown message to 404),
otherwise unconditionally deletes the Like edge for the pair if present
(no-op when absent) and returns the refreshed like count. -/
def unlikeComment (s : State) (commentId userId : Nat) : Except SvcError (String × Nat) × State :=
  if s.comments.contains commentId then
    let rels := s.comments_rels.filter (fun r => !(edgeMatch commentId userId RelPath.likedBy r))
    (Except.ok ("Comment unliked successfully", pathCount rels commentId RelPath.likedBy),
     { s with comments_rels := rels })
  else (Except.error SvcError.notFound, s)

/-! ### Boundary layer (Express routes)

Request body / query values are JavaScript values: absent (`undefined`),
numbers, or strings.  The routes guard with JS truthiness (`!v`) and the
services coerce with `Number(v)`. -/

/-- A JavaScript value arriving in a request body or query string. -/
inductive BodyVal where
  | undef
  | num (n : Nat)
  | str (s : String)
deriving DecidableEq, Repr

/-- JS truthiness as used by the `!postId || !userId` route guards:
`undefined` is falsy, `0` is falsy, the empty string is falsy. -/
def truthy : BodyVal → Bool
  | BodyVal.undef => false
  | BodyVal.num n => n != 0
  | BodyVal.str s => s != ""

/-- Decimal numeral parser: `some n` when the string is a non-empty string
of decimal digits denoting `n`, `none` otherwise. -/
def strToNat? (s : String) : Option Nat :=
  if s.toList = [] then none
  else
    s.toList.foldl
      (fun acc c =>
        match acc with
        | some n => if c.isDigit then some (n * 10 + (c.toNat - 48)) else none
        | none => none)
      (some 0)

/-- `Number(v)` restricted to the values the verified claims exercise:
numbers map to themselves and non-empty decimal numerals to their value;
`none` stands for NaN (`Number(undefined)`, non-numeric strings), which the
Prisma client rejects in an `Int` filter. -/
def jsNumber : BodyVal → Option Nat
  | BodyVal.undef => none
  | BodyVal.num n => some n
  | BodyVal.str s => strToNat? s

/-- `likePost` as called with raw JS values: both ids are coerced with
`Number()` before any lookup or write; a NaN coercion surfaces as a storage
error. -/
def likePostJS (s : State) (postId userId : BodyVal) : Except SvcError LikeResult × State :=
  match jsNumber postId, jsNumber userId with
  | some p, some u => likePost s p u
  | _, _ => (Except.error SvcError.invalidNumber, s)

/-- `isPostLikedByUser` as called with raw JS values, coercing with
`Number()` first. -/
def isPostLikedByUserJS (s : State) (postId userId : BodyVal) : Except SvcError Bool :=
  match jsNumber postId, jsNumber userId with
  | some p, some u => Except.ok (isPostLikedByUser s p u)
  | _, _ => Except.error SvcError.invalidNumber

/-- `POST /post/like` (post.routes.js): 400 when `postId` or `userId` is
falsy, otherwise run `likePost` and map success to 200, the
`'Post not found'` error to 404, anything else to 500.  Returns the HTTP
status and the resulting state. -/
def routePostLike (s : State) (postId userId : BodyVal) : Nat × State :=
  if !(truthy postId) || !(truthy userId) then (400, s)
  else
    match likePostJS s postId userId with
    | (Except.ok _, t) => (200, t)
    | (Except.error SvcError.notFound, t) => (404, t)
    | (Except.error _, t) => (500, t)

/-- What a route handler does before any ledger call: either reject the
request with HTTP 400, or invoke the ledger with the given arguments. -/
inductive BoundaryOutcome (α : Type) where
  | badRequest
  | ledgerCall (args : α)
deriving DecidableEq, Repr

/-- Pre-ledger guard of `POST /post/like`: rejects with 400 when `postId`
or `userId` is falsy, else calls `likePost`. -/
def postLikeBoundary (postId userId : BodyVal) : BoundaryOutcome (BodyVal × BodyVal) :=
  if !(truthy postId) || !(truthy userId) then BoundaryOutcome.badRequest
  else BoundaryOutcome.ledgerCall (postId, userId)

/-- Pre-ledger guard of `GET /post/:postId/is-liked`: the path parameter is
always present; rejects with 400 when the `userId` query value is falsy,
else calls `isPostLikedByUser`. -/
def postIsLikedBoundary (postId : String) (userId : BodyVal) :
    BoundaryOutcome (String × BodyVal) :=
  if !(truthy userId) then BoundaryOutcome.badRequest
  else BoundaryOutcome.ledgerCall (postId, userId)

/-- Pre-ledger guard of `POST /comment/like-comment/:id`
(comment routes, lines 235-244): the handler performs no validation and
always calls `likeComment(commentId, userId)`. -/
def commentLikeBoundary (commentId : String) (userId : BodyVal) :
    BoundaryOutcome (String × BodyVal) :=
  BoundaryOutcome.ledgerCall (commentId, userId)

/-- Pre-ledger guard of `POST /comment/dislike-comment/:id`
(comment routes, lines 280-289): no validation, always calls
`dislikeComment(commentId, userId)`. -/
def commentDislikeBoundary (commentId : String) (userId : BodyVal) :
    BoundaryOutcome (String × BodyVal) :=
  BoundaryOutcome.ledgerCall (commentId, userId)

/-- Pre-ledger guard of `POST /comment/unlike-comment/:id`: rejects with
400 when `userId` is falsy, else calls `unlikeComment`. -/
def commentUnlikeBoundary (commentId : String) (userId : BodyVal) :
    BoundaryOutcome (String × BodyVal) :=
  if !(truthy userId) then BoundaryOutcome.badRequest
  else BoundaryOutcome.ledgerCall (commentId, userId)

/-- Pre-ledger guard of `GET /comment/:commentId/is-liked`: rejects with
400 when `userId` is falsy, else calls `isCommentLikedByUser`. -/
def commentIsLikedBoundary (commentId : String) (userId : BodyVal) :
    BoundaryOutcome (String × BodyVal) :=
  if !(truthy userId) then BoundaryOutcome.badRequest
  else BoundaryOutcome.ledgerCall (commentId, userId)

/-! ### Invariants and reachable states -/

/-- The core invariant of the relation table: at most one `likedBy` edge and
at most one `dislikedBy` edge per (parentId, userId) pair. -/
def AtMostOnePerPair (rels : List Rel) : Prop :=
  ∀ parentId userId : Nat,
    pairCount rels parentId userId RelPath.likedBy ≤ 1 ∧
    pairCount rels parentId userId RelPath.dislikedBy ≤ 1

/-- Well-formedness of the `posts_rels` table as guaranteed by the database:
primary keys are pairwise distinct and below the auto-increment counter. -/
def WFPostsRels (s : State) : Prop :=
  (s.posts_rels.map Rel.id).Nodup ∧ ∀ r ∈ s.posts_rels, r.id < s.nextPostsRelId

/-- States reachable by the reaction ledger: an initial state whose relation
tables hold only tag rows (the content system's tag links), followed by any
sequence of ledger operations.  The read-only queries do not produce states
and so preserve every state property trivially. -/
inductive Reachable : State → Prop where
  | init (posts comments : List Nat) (users : List User) (prels crels : List Rel)
      (np nc : Nat)
      (hp : ∀ r ∈ prels, r.path = RelPath.tags)
      (hc : ∀ r ∈ crels, r.path = RelPath.tags) :
      Reachable ⟨posts, comments, prels, crels, users, np, nc⟩
  | like (s : State) (postId userId : Nat) (h : Reachable s) :
      Reachable (likePost s postId userId).2
  | clike (s : State) (commentId userId : Nat) (h : Reachable s) :
      Reachable (likeComment s commentId userId).2
  | cdislike (s : State) (commentId userId : Nat) (h : Reachable s) :
      Reachable (dislikeComment s commentId userId).2
  | cunlike (s : State) (commentId userId : Nat) (h : Reachable s) :
      Reachable (unlikeComment s commentId userId).2

/-- A small concrete database for witnesses: post 7 exists, no comments, no
relation rows, no users, fresh id counters. -/
def demoState : State := ⟨[7], [], [], [], [], 1, 1⟩

/-- The stored user attributes that are exposed by `getLikesByPostId`
(directly, or via the derived `avatarUrl` computed from `avatar`).  All other
stored attributes — `password`, `email` — are hidden. -/
def visibleUserFields (u : User) : Nat × String × Option String × Option String :=
  (u.id, u.full_name, u.avatar_url, u.avatar)

/-- A state where post 7 has one like by user 1, whose row carries a
password and an email. -/
def demoStateUsers1 : State :=
  ⟨[7], [], [⟨1, 7, some 1, none, RelPath.likedBy⟩], [],
   [⟨1, "Alice", none, some "k1", "pw1", "alice@a"⟩], 2, 1⟩

/-- The same state as `demoStateUsers1` except for user 1's hidden
`password` and `email` fields. -/
def demoStateUsers2 : State :=
  ⟨[7], [], [⟨1, 7, some 1, none, RelPath.likedBy⟩], [],
   [⟨1, "Alice", none, some "k1", "pw2", "alice@b"⟩], 2, 1⟩

/-! ### Helper lemmas about edge counting -/

theorem pairCount_filter_le (rels : List Rel) (q : Rel → Bool) (parentId userId : Nat)
    (p : RelPath) :
    pairCount (rels.filter q) parentId userId p ≤ pairCount rels parentId userId p :=
  (((List.filter_sublist rels)).filter _).length_le

theorem pairCount_append_single (rels : List Rel) (r : Rel) (parentId userId : Nat)
    (p : RelPath) :
    pairCount (rels ++ [r]) parentId userId p =
      pairCount rels parentId userId p + (if edgeMatch parentId userId p r then 1 else 0) := by
  by_cases h : edgeMatch parentId userId p r <;>
    simp [pairCount, List.filter_append, List.filter_cons, h]

theorem pairCount_eq_zero_of_find?_none {rels : List Rel} {parentId userId : Nat} {p : RelPath}
    (h : rels.find? (edgeMatch parentId userId p) = none) :
    pairCount rels parentId userId p = 0 := by
  have hall := List.find?_eq_none.mp h
  rw [pairCount, List.length_eq_zero, List.filter_eq_nil_iff]
  exact hall

theorem edgeMatch_mk_iff {parentId userId nid pid uid : Nat} {p q : RelPath} :
    edgeMatch parentId userId q
        { id := nid, parent_id := pid, user_id := some uid, tags_id := none, path := p } = true ↔
      pid = parentId ∧ uid = userId ∧ p = q := by
  simp [edgeMatch, and_assoc]

theorem pairCount_insert_le_one {rels : List Rel} {pid uid nid : Nat} {p : RelPath}
    (hnone : rels.find? (edgeMatch pid uid p) = none)
    {parentId userId : Nat} {q : RelPath}
    (hle : pairCount rels parentId userId q ≤ 1) :
    pairCount
        (rels ++ [{ id := nid, parent_id := pid, user_id := some uid,
                    tags_id := none, path := p }])
        parentId userId q ≤ 1 := by
  rw [pairCount_append_single]
  by_cases hm : edgeMatch parentId userId q
      { id := nid, parent_id := pid, user_id := some uid, tags_id := none, path := p }
  · obtain ⟨h1, h2, h3⟩ := edgeMatch_mk_iff.mp hm
    subst h1; subst h2; subst h3
    rw [pairCount_eq_zero_of_find?_none hnone]
    simp [hm]
  · simpa [hm] using hle

theorem pairCount_eq_zero_of_tags_only {rels : List Rel} {parentId userId : Nat} {p : RelPath}
    (htags : ∀ r ∈ rels, r.path = RelPath.tags) (hne : p ≠ RelPath.tags) :
    pairCount rels parentId userId p = 0 := by
  rw [pairCount, List.length_eq_zero, List.filter_eq_nil_iff]
  intro r hr hm
  have hpath : r.path = p := by
    simp [edgeMatch] at hm
    exact hm.2
  exact hne (hpath ▸ htags r hr)

theorem atMostOne_of_tags_only {rels : List Rel}
    (htags : ∀ r ∈ rels, r.path = RelPath.tags) : AtMostOnePerPair rels := by
  intro parentId userId
  constructor <;> rw [pairCount_eq_zero_of_tags_only htags (by simp)] <;> simp

/-! ### Branch equations for the services -/

theorem likePost_not_found {s : State} {postId userId : Nat}
    (h : s.posts.contains postId = false) :
    likePost s postId userId = (Except.error SvcError.notFound, s) := by
  have h' : postId ∉ s.posts := by simpa using h
  simp [likePost, h']

theorem likePost_toggle_off {s : State} {postId userId : Nat} {e : Rel}
    (h : s.posts.contains postId = true)
    (hf : s.posts_rels.find? (edgeMatch postId userId RelPath.likedBy) = some e) :
    likePost s postId userId =
      (Except.ok
        { liked := false,
          likeCount :=
            pathCount (s.posts_rels.filter (fun r => r.id != e.id)) postId RelPath.likedBy,
          message := "Post unliked successfully" },
       { s with posts_rels := s.posts_rels.filter (fun r => r.id != e.id) }) := by
  have h' : postId ∈ s.posts := by simpa using h
  simp [likePost, h', hf]

theorem likePost_toggle_on {s : State} {postId userId : Nat}
    (h : s.posts.contains postId = true)
    (hf : s.posts_rels.find? (edgeMatch postId userId RelPath.likedBy) = none) :
    likePost s postId userId =
      (Except.ok
        { liked := true,
          likeCount :=
            pathCount
              (s.posts_rels ++
                [{ id := s.nextPostsRelId, parent_id := postId, user_id := some userId,
                   tags_id := none, path := RelPath.likedBy }])
              postId RelPath.likedBy,
          message := "Post liked successfully" },
       { s with
          posts_rels :=
            s.posts_rels ++
              [{ id := s.nextPostsRelId, parent_id := postId, user_id := some userId,
                 tags_id := none, path := RelPath.likedBy }],
          nextPostsRelId := s.nextPostsRelId + 1 }) := by
  have h' : postId ∈ s.posts := by simpa using h
  simp [likePost, h', hf]

theorem likeComment_toggle_off {s : State} {commentId userId : Nat} {e : Rel}
    (hf : s.comments_rels.find? (edgeMatch commentId userId RelPath.likedBy) = some e) :
    (likeComment s commentId userId).2 =
      { s with comments_rels := s.comments_rels.filter (fun r => r.id != e.id) } := by
  simp [likeComment, hf]

theorem likeComment_toggle_on {s : State} {commentId userId : Nat}
    (hf : s.comments_rels.find? (edgeMatch commentId userId RelPath.likedBy) = none) :
    (likeComment s commentId userId).2 =
      { s with
          comments_rels :=
            s.comments_rels ++
              [{ id := s.nextCommentsRelId, parent_id := commentId, user_id := some userId,
                 tags_id := none, path := RelPath.likedBy }],
          nextCommentsRelId := s.nextCommentsRelId + 1 } := by
  simp [likeComment, hf]

theorem dislikeComment_toggle_off {s : State} {commentId userId : Nat} {e : Rel}
    (hf : s.comments_rels.find? (edgeMatch commentId userId RelPath.dislikedBy) = some e) :
    (dislikeComment s commentId userId).2 =
      { s with comments_rels := s.comments_rels.filter (fun r => r.id != e.id) } := by
  simp [dislikeComment, hf]

theorem dislikeComment_toggle_on {s : State} {commentId userId : Nat}
    (hf : s.comments_rels.find? (edgeMatch commentId userId RelPath.dislikedBy) = none) :
    (dislikeComment s commentId userId).2 =
      { s with
          comments_rels :=
            s.comments_rels ++
              [{ id := s.nextCommentsRelId, parent_id := commentId, user_id := some userId,
                 tags_id := none, path := RelPath.dislikedBy }],
          nextCommentsRelId := s.nextCommentsRelId + 1 } := by
  simp [dislikeComment, hf]

/-! ### Preservation of the core invariant -/

theorem atMostOne_filter {rels : List Rel} (q : Rel → Bool) (h : AtMostOnePerPair rels) :
    AtMostOnePerPair (rels.filter q) := by
  intro parentId userId
  exact ⟨le_trans (pairCount_filter_le ..) (h parentId userId).1,
         le_trans (pairCount_filter_le ..) (h parentId userId).2⟩

theorem atMostOne_insert {rels : List Rel} {pid uid nid : Nat} {p : RelPath}
    (h : AtMostOnePerPair rels)
    (hnone : rels.find? (edgeMatch pid uid p) = none) :
    AtMostOnePerPair
      (rels ++ [{ id := nid, parent_id := pid, user_id := some uid,
                  tags_id := none, path := p }]) := by
  intro parentId userId
  exact ⟨pairCount_insert_le_one hnone (h parentId userId).1,
         pairCount_insert_le_one hnone (h parentId userId).2⟩

theorem likePost_preserves_inv {s : State} (pid uid : Nat)
    (hp : AtMostOnePerPair s.posts_rels) (hc : AtMostOnePerPair s.comments_rels) :
    AtMostOnePerPair (likePost s pid uid).2.posts_rels ∧
      AtMostOnePerPair (likePost s pid uid).2.comments_rels := by
  by_cases h : s.posts.contains pid = true
  · cases hf : s.posts_rels.find? (edgeMatch pid uid RelPath.likedBy) with
    | some e => rw [likePost_toggle_off h hf]; exact ⟨atMostOne_filter _ hp, hc⟩
    | none => rw [likePost_toggle_on h hf]; exact ⟨atMostOne_insert hp hf, hc⟩
  · rw [likePost_not_found (by simpa using h)]
    exact ⟨hp, hc⟩

theorem likeComment_preserves_inv {s : State} (cid uid : Nat)
    (hp : AtMostOnePerPair s.posts_rels) (hc : AtMostOnePerPair s.comments_rels) :
    AtMostOnePerPair (likeComment s cid uid).2.posts_rels ∧
      AtMostOnePerPair (likeComment s cid uid).2.comments_rels := by
  cases hf : s.comments_rels.find? (edgeMatch cid uid RelPath.likedBy) with
  | some e => rw [likeComment_toggle_off hf]; exact ⟨hp, atMostOne_filter _ hc⟩
  | none => rw [likeComment_toggle_on hf]; exact ⟨hp, atMostOne_insert hc hf⟩

theorem dislikeComment_preserves_inv {s : State} (cid uid : Nat)
    (hp : AtMostOnePerPair s.posts_rels) (hc : AtMostOnePerPair s.comments_rels) :
    AtMostOnePerPair (dislikeComment s cid uid).2.posts_rels ∧
      AtMostOnePerPair (dislikeComment s cid uid).2.comments_rels := by
  cases hf : s.comments_rels.find? (edgeMatch cid uid RelPath.dislikedBy) with
  | some e => rw [dislikeComment_toggle_off hf]; exact ⟨hp, atMostOne_filter _ hc⟩
  | none => rw [dislikeComment_toggle_on hf]; exact ⟨hp, atMostOne_insert hc hf⟩

theorem unlikeComment_preserves_inv {s : State} (cid uid : Nat)
    (hp : AtMostOnePerPair s.posts_rels) (hc : AtMostOnePerPair s.comments_rels) :
    AtMostOnePerPair (unlikeComment s cid uid).2.posts_rels ∧
      AtMostOnePerPair (unlikeComment s cid uid).2.comments_rels := by
  by_cases h : s.comments.contains cid = true
  · simp only [unlikeComment, h, if_true]
    exact ⟨hp, atMostOne_filter _ hc⟩
  · have h' : s.comments.contains cid = false := by simpa using h
    simp only [unlikeComment, h', Bool.false_eq_true, if_false]
    exact ⟨hp, hc⟩

/-! ### Helper lemmas for the toggle involution -/

theorem filter_ne_id_eq_erase {l : List Rel} {e : Rel}
    (hnd : (l.map Rel.id).Nodup) (he : e ∈ l) :
    l.filter (fun r => r.id != e.id) = l.erase e := by
  induction l with
  | nil => cases he
  | cons a t ih =>
      rw [List.map_cons, List.nodup_cons] at hnd
      obtain ⟨hna, hnt⟩ := hnd
      by_cases hae : a = e
      · subst hae
        rw [List.erase_cons_head, List.filter_cons]
        simp only [bne_self_eq_false, Bool.false_eq_true, if_false]
        refine List.filter_eq_self.mpr (fun r hr => ?_)
        have hne : r.id ≠ a.id := fun hh => hna (hh ▸ List.mem_map_of_mem Rel.id hr)
        simpa [bne_iff_ne] using hne
      · have het : e ∈ t := by
          rcases List.mem_cons.mp he with h | h
          · exact absurd h.symm hae
          · exact h
        have haid : a.id ≠ e.id := fun hh => hna (hh ▸ List.mem_map_of_mem Rel.id het)
        rw [List.erase_cons_tail (by simpa using hae), List.filter_cons,
          if_pos (by simpa [bne_iff_ne] using haid), ih hnt het]

theorem length_filter_cons_erase {l : List Rel} {e : Rel} (p : Rel → Bool) (he : e ∈ l) :
    (l.filter p).length = (if p e then 1 else 0) + ((l.erase e).filter p).length := by
  have hperm := (List.perm_cons_erase he).filter p
  rw [hperm.length_eq, List.filter_cons]
  by_cases hp : p e = true
  · simp [hp]
    omega
  · simp [hp]

theorem find?_erase_none {l : List Rel} {e : Rel} {pid uid : Nat} {p : RelPath}
    (hle : pairCount l pid uid p ≤ 1)
    (hf : l.find? (edgeMatch pid uid p) = some e) :
    (l.erase e).find? (edgeMatch pid uid p) = none := by
  have he : e ∈ l := List.mem_of_find?_eq_some hf
  have hpe : edgeMatch pid uid p e = true := List.find?_some hf
  have hlen := length_filter_cons_erase (edgeMatch pid uid p) he
  rw [pairCount, hlen, hpe, if_pos rfl] at hle
  have hzero : ((l.erase e).filter (edgeMatch pid uid p)).length = 0 := by omega
  rw [List.length_eq_zero] at hzero
  exact List.find?_eq_none.mpr (fun a ha => by
    have := List.filter_eq_nil_iff.mp hzero a ha
    simpa using this)

theorem filter_append_fresh {l : List Rel} {n : Nat}
    (hfresh : ∀ r ∈ l, r.id < n) (r0 : Rel) (h0 : r0.id = n) :
    (l ++ [r0]).filter (fun r => r.id != n) = l := by
  rw [List.filter_append]
  have h1 : l.filter (fun r => r.id != n) = l :=
    List.filter_eq_self.mpr
      (fun a ha => by simpa [bne_iff_ne] using Nat.ne_of_lt (hfresh a ha))
  have h2 : [r0].filter (fun r => r.id != n) = [] := by
    simp [List.filter_cons, h0]
  rw [h1, h2, List.append_nil]

theorem find?_append_some {l : List Rel} {p : Rel → Bool} {r0 : Rel}
    (hnone : l.find? p = none) (h0 : p r0 = true) :
    (l ++ [r0]).find? p = some r0 := by
  rw [List.find?_append, hnone, Option.none_or]
  exact List.find?_cons_of_pos _ h0

theorem pathCount_append_match {l : List Rel} {pid : Nat} {p : RelPath} {r0 : Rel}
    (h0 : (r0.parent_id == pid && r0.path == p) = true) :
    pathCount (l ++ [r0]) pid p = pathCount l pid p + 1 := by
  simp [pathCount, List.filter_append, List.filter_cons, h0]

theorem edgeMatch_pathPred {pid uid : Nat} {p : RelPath} {r : Rel}
    (h : edgeMatch pid uid p r = true) :
    (r.parent_id == pid && r.path == p) = true := by
  simp [edgeMatch] at h
  simp [h.1.1, h.2]

/-! ### Helper lemmas for response noninterference -/

theorem userSummaryOf_eq_of_visible {a b : User}
    (h : visibleUserFields a = visibleUserFields b) :
    userSummaryOf a = userSummaryOf b := by
  simp only [visibleUserFields, Prod.mk.injEq] at h
  obtain ⟨h1, h2, h3, h4⟩ := h
  simp [userSummaryOf, h1, h2, h3, h4]

theorem find?_user_congr {l₁ l₂ : List User}
    (h : l₁.map visibleUserFields = l₂.map visibleUserFields) (uid : Nat) :
    (l₁.find? (fun u => u.id == uid)).map userSummaryOf =
      (l₂.find? (fun u => u.id == uid)).map userSummaryOf := by
  induction l₁ generalizing l₂ with
  | nil =>
      cases l₂ with
      | nil => rfl
      | cons b t => simp at h
  | cons a t ih =>
      cases l₂ with
      | nil => simp at h
      | cons b t₂ =>
          simp only [List.map_cons, List.cons.injEq] at h
          obtain ⟨h1, h2⟩ := h
          have hv := h1
          simp only [visibleUserFields, Prod.mk.injEq] at hv
          have hid : a.id = b.id := hv.1
          by_cases hq : (a.id == uid) = true
          · have e1 : (a :: t).find? (fun u => u.id == uid) = some a :=
              List.find?_cons_of_pos _ hq
            have e2 : (b :: t₂).find? (fun u => u.id == uid) = some b :=
              List.find?_cons_of_pos _ (by rw [← hid]; exact hq)
            rw [e1, e2]
            simp [userSummaryOf_eq_of_visible h1]
          · have e1 : (a :: t).find? (fun u => u.id == uid) =
                t.find? (fun u => u.id == uid) :=
              List.find?_cons_of_neg _ (by simpa using hq)
            have e2 : (b :: t₂).find? (fun u => u.id == uid) =
                t₂.find? (fun u => u.id == uid) :=
              List.find?_cons_of_neg _ (by rw [← hid]; simpa using hq)
            rw [e1, e2]
            exact ih h2

/-! ### Claim theorems -/

/-- C2: every reachable ledger state carries at most one `likedBy` edge and
at most one `dislikedBy` edge per (parentId, userId) pair, in both relation
tables; every state-changing ledger operation preserves the invariant (the
queries are pure and do not produce states). -/
theorem reachable_at_most_one_edge_per_pair (s : State) (h : Reachable s) :
    AtMostOnePerPair s.posts_rels ∧ AtMostOnePerPair s.comments_rels := by
  induction h with
  | init posts comments users prels crels np nc hp hc =>
      exact ⟨atMostOne_of_tags_only hp, atMostOne_of_tags_only hc⟩
  | like s pid uid h ih => exact likePost_preserves_inv pid uid ih.1 ih.2
  | clike s cid uid h ih => exact likeComment_preserves_inv cid uid ih.1 ih.2
  | cdislike s cid uid h ih => exact dislikeComment_preserves_inv cid uid ih.1 ih.2
  | cunlike s cid uid h ih => exact unlikeComment_preserves_inv cid uid ih.1 ih.2

/-- Witness for C2 at a concrete reachable state (post 7 liked once by
user 1 starting from `demoState`). -/
theorem reachable_at_most_one_edge_per_pair_witness :
    Reachable (likePost demoState 7 1).2 ∧
      (AtMostOnePerPair (likePost demoState 7 1).2.posts_rels ∧
        AtMostOnePerPair (likePost demoState 7 1).2.comments_rels) := by
  have hr : Reachable (likePost demoState 7 1).2 :=
    Reachable.like demoState 7 1
      (Reachable.init [7] [] [] [] [] 1 1 (by simp) (by simp))
  exact ⟨hr, reachable_at_most_one_edge_per_pair _ hr⟩

/-- C5: `isPostLikedByUser(postId, userId)` returns true iff a `likedBy`
edge for the (postId, userId) pair is present in the store. -/
theorem isPostLikedByUser_iff_edge (s : State) (postId userId : Nat) :
    isPostLikedByUser s postId userId = true ↔
      ∃ r, r ∈ s.posts_rels ∧ edgeMatch postId userId RelPath.likedBy r = true := by
  simp [isPostLikedByUser, List.find?_isSome]

/-- C1: for an existing post, `likePost` looks up the `likedBy` edge of the
(postId, userId) pair; it succeeds, returns `liked` negated from the current
presence of the edge and the refreshed like count of the resulting store,
deletes exactly the found edge when one is present, and inserts a fresh edge
for the pair when none is. -/
theorem likePost_toggle_behavior (s : State) (postId userId : Nat)
    (hpost : s.posts.contains postId = true) :
    ∃ res : LikeResult,
      (likePost s postId userId).1 = Except.ok res ∧
      res.liked = !(isPostLikedByUser s postId userId) ∧
      res.likeCount = pathCount (likePost s postId userId).2.posts_rels postId RelPath.likedBy ∧
      (∀ e, s.posts_rels.find? (edgeMatch postId userId RelPath.likedBy) = some e →
        (likePost s postId userId).2 =
          { s with posts_rels := s.posts_rels.filter (fun r => r.id != e.id) }) ∧
      (s.posts_rels.find? (edgeMatch postId userId RelPath.likedBy) = none →
        (likePost s postId userId).2 =
          { s with
              posts_rels :=
                s.posts_rels ++
                  [{ id := s.nextPostsRelId, parent_id := postId, user_id := some userId,
                     tags_id := none, path := RelPath.likedBy }],
              nextPostsRelId := s.nextPostsRelId + 1 }) := by
  cases hf : s.posts_rels.find? (edgeMatch postId userId RelPath.likedBy) with
  | some e =>
      rw [likePost_toggle_off hpost hf]
      refine ⟨_, rfl, ?_, rfl, ?_, ?_⟩
      · simp [isPostLikedByUser, hf]
      · intro e' he'
        cases he'
        rfl
      · intro hnone
        cases hnone
  | none =>
      rw [likePost_toggle_on hpost hf]
      refine ⟨_, rfl, ?_, rfl, ?_, ?_⟩
      · simp [isPostLikedByUser, hf]
      · intro e' he'
        cases he'
      · intro _
        rfl

/-- Witness for C1 at `demoState` (post 7 exists, user 1 has not liked). -/
theorem likePost_toggle_behavior_witness :
    demoState.posts.contains 7 = true ∧
      ∃ res : LikeResult,
        (likePost demoState 7 1).1 = Except.ok res ∧
        res.liked = !(isPostLikedByUser demoState 7 1) ∧
        res.likeCount = pathCount (likePost demoState 7 1).2.posts_rels 7 RelPath.likedBy ∧
        (∀ e, demoState.posts_rels.find? (edgeMatch 7 1 RelPath.likedBy) = some e →
          (likePost demoState 7 1).2 =
            { demoState with posts_rels := demoState.posts_rels.filter (fun r => r.id != e.id) }) ∧
        (demoState.posts_rels.find? (edgeMatch 7 1 RelPath.likedBy) = none →
          (likePost demoState 7 1).2 =
            { demoState with
                posts_rels :=
                  demoState.posts_rels ++
                    [{ id := demoState.nextPostsRelId, parent_id := 7, user_id := some 1,
                       tags_id := none, path := RelPath.likedBy }],
                nextPostsRelId := demoState.nextPostsRelId + 1 }) :=
  ⟨by decide, likePost_toggle_behavior demoState 7 1 (by decide)⟩

/-- C4: the `likeCount` returned by a successful `likePost` equals the
number of `likedBy` edges of the post in the resulting store, and the
`likeCount` computed by `getPostById` equals the number of `likedBy` edges
of the post in the current store; no count is stored anywhere in `State`. -/
theorem likeCount_equals_edge_count :
    (∀ (s : State) (postId userId : Nat) (res : LikeResult) (t : State),
        likePost s postId userId = (Except.ok res, t) →
        res.likeCount = pathCount t.posts_rels postId RelPath.likedBy) ∧
    (∀ (s : State) (postId : Nat) (v : PostView),
        getPostById s postId = some v →
        v.likeCount = pathCount s.posts_rels postId RelPath.likedBy) := by
  constructor
  · intro s postId userId res t h
    by_cases hp : s.posts.contains postId = true
    · cases hf : s.posts_rels.find? (edgeMatch postId userId RelPath.likedBy) with
      | some e =>
          rw [likePost_toggle_off hp hf] at h
          simp only [Prod.mk.injEq, Except.ok.injEq] at h
          obtain ⟨h1, h2⟩ := h
          subst h1
          subst h2
          rfl
      | none =>
          rw [likePost_toggle_on hp hf] at h
          simp only [Prod.mk.injEq, Except.ok.injEq] at h
          obtain ⟨h1, h2⟩ := h
          subst h1
          subst h2
          rfl
    · rw [likePost_not_found (by simpa using hp)] at h
      simp at h
  · intro s postId v h
    unfold getPostById at h
    by_cases hp : s.posts.contains postId = true
    · rw [hp] at h
      simp only [if_true] at h
      cases h
      rw [pathCount, List.filter_filter]
      have hcongr :
          (fun r : Rel => (r.path == RelPath.likedBy) && (r.parent_id == postId)) =
            fun r : Rel => (r.parent_id == postId) && (r.path == RelPath.likedBy) := by
        funext r
        exact Bool.and_comm ..
      rw [hcongr]
    · rw [(by simpa using hp : s.posts.contains postId = false)] at h
      simp at h

/-- Witness for C4 (both conjuncts applied at a concrete like of post 7 by
user 1 in `demoState`). -/
theorem likeCount_equals_edge_count_witness :
    ((likePost demoState 7 1).1 =
        Except.ok { liked := true, likeCount := 1, message := "Post liked successfully" }) ∧
      (1 : Nat) = pathCount (likePost demoState 7 1).2.posts_rels 7 RelPath.likedBy ∧
      getPostById (likePost demoState 7 1).2 7 = some { id := 7, likeCount := 1 } ∧
      (1 : Nat) = pathCount (likePost demoState 7 1).2.posts_rels 7 RelPath.likedBy := by
  refine ⟨by rfl, ?_, by rfl, ?_⟩
  · exact likeCount_equals_edge_count.1 demoState 7 1 _ _ (by rfl)
  · exact likeCount_equals_edge_count.2 (likePost demoState 7 1).2 7 _ (by rfl)

/-- C6: liking a postId that references no existing post makes `likePost`
fail with NotFound and leaves the whole state (in particular the edge
store) unchanged; for truthy numeric ids the `/post/like` route surfaces
this as HTTP 404, not 500. -/
theorem likePost_missing_post_not_found (s : State) (postId userId : Nat)
    (habsent : s.posts.contains postId = false) :
    likePost s postId userId = (Except.error SvcError.notFound, s) ∧
      (postId ≠ 0 → userId ≠ 0 →
        routePostLike s (BodyVal.num postId) (BodyVal.num userId) = (404, s)) := by
  refine ⟨likePost_not_found habsent, fun hp hu => ?_⟩
  simp [routePostLike, truthy, likePostJS, jsNumber, hp, hu, likePost_not_found habsent]

/-- Witness for C6: the spec scenario of liking the non-existent post
999999. -/
theorem likePost_missing_post_not_found_witness :
    likePost demoState 999999 1 = (Except.error SvcError.notFound, demoState) ∧
      routePostLike demoState (BodyVal.num 999999) (BodyVal.num 1) = (404, demoState) :=
  ⟨(likePost_missing_post_not_found demoState 999999 1 (by decide)).1,
   (likePost_missing_post_not_found demoState 999999 1 (by decide)).2
     (by decide) (by decide)⟩

/-- Counterexample for C7: the `/comment/like-comment/:id` and
`/comment/dislike-comment/:id` handlers perform no validation, so a request
with a missing `userId` is not rejected with 400; the ledger operation is
invoked with the missing value. -/
theorem comment_like_missing_user_not_rejected :
    commentLikeBoundary "5" BodyVal.undef =
        BoundaryOutcome.ledgerCall ("5", BodyVal.undef) ∧
      commentLikeBoundary "5" BodyVal.undef ≠ BoundaryOutcome.badRequest ∧
      commentDislikeBoundary "5" BodyVal.undef =
        BoundaryOutcome.ledgerCall ("5", BodyVal.undef) ∧
      commentDislikeBoundary "5" BodyVal.undef ≠ BoundaryOutcome.badRequest := by
  refine ⟨rfl, ?_, rfl, ?_⟩ <;> intro h <;> cases h

/-- C7 as amended: the post-like route, the post and comment is-liked
routes and the comment-unlike route reject a request with a missing
required identifier with HTTP 400 before invoking the ledger; the
comment-like and comment-dislike routes perform no such check and always
invoke the ledger. -/
theorem boundary_missing_identifier (v : BodyVal) (cid : String) :
    postLikeBoundary BodyVal.undef v = BoundaryOutcome.badRequest ∧
      postLikeBoundary v BodyVal.undef = BoundaryOutcome.badRequest ∧
      postIsLikedBoundary cid BodyVal.undef = BoundaryOutcome.badRequest ∧
      commentUnlikeBoundary cid BodyVal.undef = BoundaryOutcome.badRequest ∧
      commentIsLikedBoundary cid BodyVal.undef = BoundaryOutcome.badRequest ∧
      commentLikeBoundary cid v = BoundaryOutcome.ledgerCall (cid, v) ∧
      commentDislikeBoundary cid v = BoundaryOutcome.ledgerCall (cid, v) := by
  refine ⟨rfl, ?_, rfl, rfl, rfl, rfl, rfl⟩
  simp [postLikeBoundary, truthy]

/-- C8: `getLikesByPostId` returns one element per `likedBy` edge of the
post; each element is built from an edge (carrying its row id, its user id
and the joined user summary); and the user ids occurring in the result are
exactly the users holding a `likedBy` edge on the post. -/
theorem getLikesByPostId_lists_reactors (s : State) (postId : Nat) :
    (getLikesByPostId s postId).length = pathCount s.posts_rels postId RelPath.likedBy ∧
      (∀ en : LikeEntry,
        en ∈ getLikesByPostId s postId ↔
          ∃ r, r ∈ s.posts_rels ∧
            (r.parent_id == postId && r.path == RelPath.likedBy) = true ∧
            en = { id := r.id, userId := r.user_id,
                   user := (r.user_id.bind
                       (fun uid => s.users.find? (fun u => u.id == uid))).map userSummaryOf }) ∧
      (∀ userId : Nat,
        (∃ en, en ∈ getLikesByPostId s postId ∧ en.userId = some userId) ↔
          ∃ r, r ∈ s.posts_rels ∧
            (r.parent_id == postId && r.path == RelPath.likedBy) = true ∧
            r.user_id = some userId) := by
  refine ⟨?_, ?_, ?_⟩
  · simp [getLikesByPostId, pathCount]
  · intro en
    simp only [getLikesByPostId, List.mem_map, List.mem_filter]
    constructor
    · rintro ⟨r, ⟨hr, hm⟩, rfl⟩
      exact ⟨r, hr, hm, rfl⟩
    · rintro ⟨r, hr, hm, rfl⟩
      exact ⟨r, ⟨hr, hm⟩, rfl⟩
  · intro userId
    simp only [getLikesByPostId, List.mem_map, List.mem_filter]
    constructor
    · rintro ⟨en, ⟨r, ⟨hr, hm⟩, rfl⟩, hu⟩
      exact ⟨r, hr, hm, hu⟩
    · rintro ⟨r, hr, hm, hu⟩
      exact ⟨_, ⟨r, ⟨hr, hm⟩, rfl⟩, hu⟩

/-- C10: for ids given as decimal-numeral strings, `likePost` and
`isPostLikedByUser` coerce with `Number()` first, so the string form
produces exactly the same result and state change as the corresponding
number, which in turn behaves as the numeric service functions. -/
theorem numeric_string_ids_coerce (s : State) (ps us : String) (p u : Nat)
    (hp : strToNat? ps = some p) (hu : strToNat? us = some u) :
    likePostJS s (BodyVal.str ps) (BodyVal.str us) =
        likePostJS s (BodyVal.num p) (BodyVal.num u) ∧
      isPostLikedByUserJS s (BodyVal.str ps) (BodyVal.str us) =
        isPostLikedByUserJS s (BodyVal.num p) (BodyVal.num u) ∧
      likePostJS s (BodyVal.num p) (BodyVal.num u) = likePost s p u ∧
      isPostLikedByUserJS s (BodyVal.num p) (BodyVal.num u) =
        Except.ok (isPostLikedByUser s p u) := by
  simp [likePostJS, isPostLikedByUserJS, jsNumber, hp, hu]

/-- Witness for C10 at the string ids "7" and "1" in `demoState`. -/
theorem numeric_string_ids_coerce_witness :
    strToNat? "7" = some 7 ∧ strToNat? "1" = some 1 ∧
      likePostJS demoState (BodyVal.str "7") (BodyVal.str "1") =
        likePostJS demoState (BodyVal.num 7) (BodyVal.num 1) ∧
      isPostLikedByUserJS demoState (BodyVal.str "7") (BodyVal.str "1") =
        isPostLikedByUserJS demoState (BodyVal.num 7) (BodyVal.num 1) :=
  ⟨by rfl, by rfl,
   (numeric_string_ids_coerce demoState "7" "1" 7 1 (by rfl) (by rfl)).1,
   (numeric_string_ids_coerce demoState "7" "1" 7 1 (by rfl) (by rfl)).2.1⟩

/-- C3: under the database guarantees (distinct fresh row ids) and the core
invariant, liking the same post twice in sequence succeeds both times,
flips `liked` back to false when the first call reported true, and returns
the like count the post had before the first call; and the spec scenario
(user 1 likes post 7, likes it again, then user 2 likes it) produces
`{liked:true, likeCount:1}`, `{liked:false, likeCount:0}`,
`{liked:true, likeCount:1}` with `isLikedByUser(7,1)=false` and
`isLikedByUser(7,2)=true` afterwards. -/
theorem like_twice_returns_to_original :
    (∀ (s : State) (postId userId : Nat),
        WFPostsRels s → AtMostOnePerPair s.posts_rels →
        s.posts.contains postId = true →
        ∃ a b : LikeResult,
          (likePost s postId userId).1 = Except.ok a ∧
          (likePost (likePost s postId userId).2 postId userId).1 = Except.ok b ∧
          (a.liked = true → b.liked = false) ∧
          b.likeCount = pathCount s.posts_rels postId RelPath.likedBy) ∧
      ((likePost demoState 7 1).1 =
          Except.ok { liked := true, likeCount := 1, message := "Post liked successfully" } ∧
        (likePost (likePost demoState 7 1).2 7 1).1 =
          Except.ok { liked := false, likeCount := 0, message := "Post unliked successfully" } ∧
        (likePost (likePost (likePost demoState 7 1).2 7 1).2 7 2).1 =
          Except.ok { liked := true, likeCount := 1, message := "Post liked successfully" } ∧
        isPostLikedByUser (likePost (likePost (likePost demoState 7 1).2 7 1).2 7 2).2 7 1 =
          false ∧
        isPostLikedByUser (likePost (likePost (likePost demoState 7 1).2 7 1).2 7 2).2 7 2 =
          true) := by
  constructor
  · intro s postId userId hwf hinv hpost
    obtain ⟨hnd, hfresh⟩ := hwf
    cases hf : s.posts_rels.find? (edgeMatch postId userId RelPath.likedBy) with
    | some e =>
        have he : e ∈ s.posts_rels := List.mem_of_find?_eq_some hf
        have hme : edgeMatch postId userId RelPath.likedBy e = true := List.find?_some hf
        have herase : s.posts_rels.filter (fun r => r.id != e.id) = s.posts_rels.erase e :=
          filter_ne_id_eq_erase hnd he
        have hf2 :
            (s.posts_rels.filter (fun r => r.id != e.id)).find?
              (edgeMatch postId userId RelPath.likedBy) = none := by
          rw [herase]
          exact find?_erase_none (hinv postId userId).1 hf
        have hstep2 :=
          @likePost_toggle_on
            { s with posts_rels := s.posts_rels.filter (fun r => r.id != e.id) }
            postId userId hpost hf2
        rw [likePost_toggle_off hpost hf, hstep2]
        refine ⟨_, _, rfl, rfl, ?_, ?_⟩
        · intro hh
          simp at hh
        · show pathCount
              (s.posts_rels.filter (fun r => r.id != e.id) ++
                [{ id := s.nextPostsRelId, parent_id := postId, user_id := some userId,
                   tags_id := none, path := RelPath.likedBy }])
              postId RelPath.likedBy = pathCount s.posts_rels postId RelPath.likedBy
          rw [pathCount_append_match (by simp), herase]
          have hsplit :=
            length_filter_cons_erase
              (fun r => r.parent_id == postId && r.path == RelPath.likedBy) he
          rw [if_pos (edgeMatch_pathPred hme)] at hsplit
          show pathCount (s.posts_rels.erase e) postId RelPath.likedBy + 1 =
            pathCount s.posts_rels postId RelPath.likedBy
          simp only [pathCount]
          omega
    | none =>
        have hf2 :
            List.find? (edgeMatch postId userId RelPath.likedBy)
              (s.posts_rels ++
                [{ id := s.nextPostsRelId, parent_id := postId, user_id := some userId,
                   tags_id := none, path := RelPath.likedBy }]) =
              some { id := s.nextPostsRelId, parent_id := postId, user_id := some userId,
                     tags_id := none, path := RelPath.likedBy } :=
          find?_append_some hf (by simp [edgeMatch])
        have hstep2 :=
          likePost_toggle_off
            (s :=
              { s with
                  posts_rels :=
                    s.posts_rels ++
                      [{ id := s.nextPostsRelId, parent_id := postId, user_id := some userId,
                         tags_id := none, path := RelPath.likedBy }],
                  nextPostsRelId := s.nextPostsRelId + 1 })
            hpost hf2
        rw [likePost_toggle_on hpost hf, hstep2]
        refine ⟨_, _, rfl, rfl, fun _ => rfl, ?_⟩
        show pathCount
            (List.filter (fun r => r.id != s.nextPostsRelId)
              (s.posts_rels ++
                [{ id := s.nextPostsRelId, parent_id := postId, user_id := some userId,
                   tags_id := none, path := RelPath.likedBy }]))
            postId RelPath.likedBy = pathCount s.posts_rels postId RelPath.likedBy
        rw [filter_append_fresh hfresh _ rfl]
  · exact ⟨by rfl, by rfl, by rfl, by rfl, by rfl⟩

/-- Witness for C3's universally quantified part, applied at `demoState`. -/
theorem like_twice_returns_to_original_witness :
    ∃ a b : LikeResult,
      (likePost demoState 7 1).1 = Except.ok a ∧
      (likePost (likePost demoState 7 1).2 7 1).1 = Except.ok b ∧
      (a.liked = true → b.liked = false) ∧
      b.likeCount = pathCount demoState.posts_rels 7 RelPath.likedBy :=
  like_twice_returns_to_original.1 demoState 7 1
    (by simp [WFPostsRels, demoState])
    (by intro a b; simp [pairCount, demoState])
    (by decide)

/-- C9: the `getLikesByPostId` response exposes, per element, only the edge
id, the reacting user id, and the user summary computed from `id`,
`full_name`, `avatar_url` and `avatar` (the source of the derived
`avatarUrl`); hidden stored user attributes such as `password` and `email`
neither appear in nor influence the output: two states agreeing on the edge
store and on the exposed user fields produce identical responses. -/
theorem getLikes_hides_sensitive_fields (s₁ s₂ : State) (postId : Nat)
    (hrels : s₁.posts_rels = s₂.posts_rels)
    (husers : s₁.users.map visibleUserFields = s₂.users.map visibleUserFields) :
    getLikesByPostId s₁ postId = getLikesByPostId s₂ postId := by
  unfold getLikesByPostId
  rw [hrels]
  apply List.map_congr_left
  intro r _
  cases hu : r.user_id with
  | none => simp
  | some uid =>
      simp only [Option.some_bind, LikeEntry.mk.injEq, true_and]
      exact find?_user_congr husers uid

/-- Witness for C9: two concrete states differing only in user 1's
`password` and `email` yield identical like lists. -/
theorem getLikes_hides_sensitive_fields_witness :
    demoStateUsers1.posts_rels = demoStateUsers2.posts_rels ∧
      demoStateUsers1.users.map visibleUserFields =
        demoStateUsers2.users.map visibleUserFields ∧
      getLikesByPostId demoStateUsers1 7 = getLikesByPostId demoStateUsers2 7 :=
  ⟨rfl, rfl, getLikes_hides_sensitive_fields demoStateUsers1 demoStateUsers2 7 rfl rfl⟩

end VietCultural
